import Mathlib

/-!
Shallow embedding of the statistical core of `bootstrap_go` (`main.go`):
population generation, the `mean` / `median` / `standardError` estimators,
bootstrap resampling (`bootstrap`) and the empirical central-limit-theorem
estimator (`centralLimitTheorem`).

Modelling choices, derived from the Go source:

* Go `float64` arithmetic is modelled by exact real arithmetic (`ℝ`).  Where a
  claim is specifically about the IEEE special value NaN produced by a `0/0`
  division, a separate value type `GoFloat` tracks NaN propagation through the
  same computation.
* Go's global `math/rand` generator is modelled by a state (`GoRand`)
  recording the seed it was last seeded with and the number of pseudo-random
  values consumed since.  The pseudo-random outputs themselves are abstract
  stream parameters (`gints` for the values underlying `rand.Intn`, `gnorm`
  for `rand.NormFloat64`), so every theorem holds for every stream.
* Go slices are modelled as lists.  In-place mutation is made explicit: a
  function that writes to a slice returns the slice's new contents (`median`
  returns the value together with the caller's slice after the in-place
  sort; the loops of `bootstrap` and `centralLimitTheorem` write their
  preallocated result slices index by index via `List.set`).
-/

namespace BootstrapGo

noncomputable section

/-- State of Go's global `math/rand` source: the seed it was last given via
`rand.Seed`, and how many pseudo-random values have been consumed since. -/
structure GoRand where
  seed : ℤ
  pos : ℕ

/-- Advance the generator by one consumed value. -/
def GoRand.next (r : GoRand) : GoRand :=
  ⟨r.seed, r.pos + 1⟩

/-- Model of `rand.Intn(n)` (used at main.go lines 65 and 82): consumes one
pseudo-random value and returns it reduced into `[0, n)`.  `gints s k` is the
raw value underlying the `k`-th draw after seeding with `s`; Go guarantees the
result lies in `[0, n)`, which the reduction `% n` captures (for `n = 0` Go's
`Intn` panics; that case is never reached with a non-empty population). -/
def intn (gints : ℤ → ℕ → ℕ) (r : GoRand) (n : ℕ) : ℕ × GoRand :=
  (gints r.seed r.pos % n, r.next)

/-- Model of `mean` (main.go lines 39–45): a running-sum loop over the data,
divided by the length.  An empty input yields `0 / 0`, which is `0` in this
real-valued model (Go produces NaN there; no claim depends on that case). -/
def mean (data : List ℝ) : ℝ :=
  (data.foldl (fun sum value => sum + value) 0) / (data.length : ℝ)

/-- Model of `median` (main.go lines 29–36).  Go's `sort.Float64s(data)` sorts
the caller's slice in place, so the model returns the pair of the returned
value and the contents of the caller's slice after the call.  Since `≤` on
`ℝ` is total and antisymmetric the sorted permutation of a list is unique, so
insertion sort models `sort.Float64s` exactly. -/
def median (data : List ℝ) : ℝ × List ℝ :=
  let sorted := data.insertionSort (· ≤ ·)
  let n := sorted.length
  if n % 2 = 0 then ((sorted.getD (n / 2 - 1) 0 + sorted.getD (n / 2) 0) / 2, sorted)
  else (sorted.getD (n / 2) 0, sorted)

/-- The value `median` returns to its caller. -/
def medianVal (data : List ℝ) : ℝ :=
  (median data).1

/-- Model of `standardError` (main.go lines 48–56): the sum of squared
deviations from the mean (`math.Pow(value-mean, 2)` accumulated in a loop),
divided by `float64(len(data) - 1)` — an `int` subtraction, hence the real
subtraction `(n : ℝ) - 1` —, square-rooted, then divided by
`math.Sqrt(float64(len(data)))`. -/
def standardError (data : List ℝ) : ℝ :=
  let m := mean data
  let variance := data.foldl (fun acc value => acc + (value - m) ^ 2) 0
  let stdDev := Real.sqrt (variance / ((data.length : ℝ) - 1))
  stdDev / Real.sqrt (data.length : ℝ)

/-- Spec-side definition (from the specification's words, for comparison):
the Bessel-corrected sample variance, dividing the sum of squared deviations
from the arithmetic mean by `n - 1`. -/
def sampleVariance (data : List ℝ) : ℝ :=
  ((data.map fun value => (value - mean data) ^ 2).sum) / ((data.length : ℝ) - 1)

/-- Spec-side definition (from the specification's words, for comparison):
`sampleStandardError(data) = sqrt(sampleVariance(data) / n)`. -/
def sampleStandardErrorSpec (data : List ℝ) : ℝ :=
  Real.sqrt (sampleVariance data / (data.length : ℝ))

/-- A Go `float64` value tracked just finely enough to observe the NaN that a
`0/0` division produces: either NaN, or an exact real number.  Only the
operations `standardError` performs are defined.  Division by zero yields NaN;
in every computation this type is used for (inputs of length `< 2`), the
division by zero that occurs has a zero numerator, where IEEE-754 indeed
produces NaN (a nonzero numerator over zero would give an infinity, a case
never reached in those computations). -/
inductive GoFloat where
  | nan : GoFloat
  | val : ℝ → GoFloat

namespace GoFloat

/-- `float64` addition: NaN-propagating. -/
def add : GoFloat → GoFloat → GoFloat
  | val a, val b => val (a + b)
  | _, _ => nan

/-- `float64` subtraction: NaN-propagating. -/
def sub : GoFloat → GoFloat → GoFloat
  | val a, val b => val (a - b)
  | _, _ => nan

/-- `math.Pow(x, 2)`: NaN for a NaN base. -/
def pow2 : GoFloat → GoFloat
  | val a => val (a ^ 2)
  | nan => nan

/-- `float64` division: NaN-propagating, NaN on division by zero (see the
remark on `GoFloat`: the zero divisors reached here have zero numerators). -/
def div : GoFloat → GoFloat → GoFloat
  | val a, val b => if b = 0 then nan else val (a / b)
  | _, _ => nan

/-- `math.Sqrt`: NaN for NaN or negative arguments. -/
def sqrtF : GoFloat → GoFloat
  | val a => if a < 0 then nan else val (Real.sqrt a)
  | nan => nan

end GoFloat

/-- `mean` (main.go lines 39–45) re-traced with NaN tracking. -/
def meanF (data : List ℝ) : GoFloat :=
  GoFloat.div (data.foldl (fun sum value => sum.add (GoFloat.val value)) (GoFloat.val 0))
    (GoFloat.val (data.length : ℝ))

/-- `standardError` (main.go lines 48–56) re-traced with NaN tracking, to
observe the IEEE behaviour on inputs of length `< 2`, where
`float64(len(data) - 1)` is `0` or `-1`. -/
def standardErrorF (data : List ℝ) : GoFloat :=
  let m := meanF data
  let variance :=
    data.foldl (fun acc value => acc.add (((GoFloat.val value).sub m).pow2)) (GoFloat.val 0)
  let stdDev := (variance.div (GoFloat.val ((data.length : ℝ) - 1))).sqrtF
  stdDev.div (GoFloat.val (data.length : ℝ)).sqrtF

/-- One pass of the generation loop (main.go lines 22–24):
`population[i] = rand.NormFloat64()*stddev + mean` for successive `i`,
consuming one generator value per iteration.  `gnorm s k` is the `k`-th
`NormFloat64` draw after seeding with `s`.  The Go loop fills the
preallocated slice at successive indices; the model builds the same list
front to back. -/
def genLoop (gnorm : ℤ → ℕ → ℝ) (meanArg stddev : ℝ) : ℕ → GoRand → List ℝ × GoRand
  | 0, r => ([], r)
  | size + 1, r =>
    let x := gnorm r.seed r.pos * stddev + meanArg
    let rest := genLoop gnorm meanArg stddev size r.next
    (x :: rest.1, rest.2)

/-- Model of `generatePopulation` (main.go lines 17–26).  `size` is a Go
`int`: `make([]float64, size)` panics for negative `size` (modelled by
`none`) and creates an empty slice for `size = 0` — the function performs no
validation of its own.  It unconditionally calls `rand.Seed(42)` (the seed is
hard-coded, not a parameter), so the draws that follow are a function of the
seed `42` alone, independent of the incoming generator state `r`.  Returns
the population together with the global generator state after the call. -/
def generatePopulation (gnorm : ℤ → ℕ → ℝ) (size : ℤ) (meanArg stddev : ℝ)
    (r : GoRand) : Option (List ℝ × GoRand) :=
  if size < 0 then none
  else some (genLoop gnorm meanArg stddev size.toNat ⟨42, 0⟩)

/-- Inner sampling loop shared by `bootstrap` (main.go lines 63–66) and
`centralLimitTheorem` (main.go lines 80–83):
`sample[j] = population[rand.Intn(len(population))]` for successive `j`.  The
slice `sample` is freshly allocated by `make` on each outer iteration, so it
shares no storage with `population`, which is only read here.  `List.getD`
with default `0` models the indexing; the index `… % len(population)` is in
bounds whenever the population is non-empty (for an empty population Go's
`Intn(0)` panics).  The Go loop fills the preallocated slice at successive
indices; the model builds the same list front to back. -/
def drawSample (gints : ℤ → ℕ → ℕ) (pop : List ℝ) : ℕ → GoRand → List ℝ × GoRand
  | 0, r => ([], r)
  | size + 1, r =>
    let step := intn gints r pop.length
    let rest := drawSample gints pop size step.2
    (pop.getD step.1 0 :: rest.1, rest.2)

/-- Outer loop of `bootstrap` (main.go lines 62–69): on each iteration draw
one sample, then write `means[i] = mean(sample)` and
`medians[i] = median(sample)` into the preallocated slices (`List.set`).
`k` counts the remaining iterations (`bootstrapSamples - i`).  The call
`median(sample)` sorts `sample` in place; that mutated slice —
`(median sample).2` in the model — is local to the iteration and discarded. -/
def bootLoop (gints : ℤ → ℕ → ℕ) (pop : List ℝ) (sampleSize : ℕ) :
    ℕ → ℕ → List ℝ → List ℝ → GoRand → List ℝ × List ℝ × GoRand
  | 0, _, means, medians, r => (means, medians, r)
  | k + 1, i, means, medians, r =>
    let s := drawSample gints pop sampleSize r
    bootLoop gints pop sampleSize k (i + 1)
      (means.set i (mean s.1)) (medians.set i (medianVal s.1)) s.2

/-- Model of `bootstrap` (main.go lines 59–74): run the resampling loop over
preallocated `means`/`medians` slices of length `bootstrapSamples`, then
return `(standardError(means), standardError(medians))`, paired with the
final generator state. -/
def bootstrap (gints : ℤ → ℕ → ℕ) (pop : List ℝ) (bootstrapSamples sampleSize : ℕ)
    (r : GoRand) : (ℝ × ℝ) × GoRand :=
  let res := bootLoop gints pop sampleSize bootstrapSamples 0
    (List.replicate bootstrapSamples 0) (List.replicate bootstrapSamples 0) r
  ((standardError res.1, standardError res.2.1), res.2.2)

/-- Loop of `centralLimitTheorem` (main.go lines 79–85): draw a sample, write
`sampleMeans[i] = mean(sample)`. -/
def cltLoop (gints : ℤ → ℕ → ℕ) (pop : List ℝ) (sampleSize : ℕ) :
    ℕ → ℕ → List ℝ → GoRand → List ℝ × GoRand
  | 0, _, sampleMeans, r => (sampleMeans, r)
  | k + 1, i, sampleMeans, r =>
    let s := drawSample gints pop sampleSize r
    cltLoop gints pop sampleSize k (i + 1) (sampleMeans.set i (mean s.1)) s.2

/-- Model of `centralLimitTheorem` (main.go lines 77–87): run the sampling
loop over a preallocated `sampleMeans` slice of length `numSamples`, then
return `standardError(sampleMeans)`, paired with the final generator state. -/
def centralLimitTheorem (gints : ℤ → ℕ → ℕ) (pop : List ℝ) (sampleSize numSamples : ℕ)
    (r : GoRand) : ℝ × GoRand :=
  let res := cltLoop gints pop sampleSize numSamples 0 (List.replicate numSamples 0) r
  (standardError res.1, res.2)

/-- Spec-side description of the Resampler's output stream: the list of `k`
successive samples of size `sampleSize` drawn with replacement from `pop`,
threading the generator state. -/
def samplesList (gints : ℤ → ℕ → ℕ) (pop : List ℝ) (sampleSize : ℕ) :
    ℕ → GoRand → List (List ℝ) × GoRand
  | 0, r => ([], r)
  | k + 1, r =>
    let s := drawSample gints pop sampleSize r
    let rest := samplesList gints pop sampleSize k s.2
    (s.1 :: rest.1, rest.2)

/-- Write the elements of `xs` into `l` at consecutive indices starting at
`i` — the access pattern of the Go loops, which fill a preallocated slice
slot by slot. -/
def overwrite : List ℝ → ℕ → List ℝ → List ℝ
  | l, _, [] => l
  | l, i, x :: xs => overwrite (l.set i x) (i + 1) xs

/-- One call of the numeric core on the shared population, as the run-level
driver performs them (main.go lines 125–126). -/
inductive CoreCall where
  | boot (bootstrapSamples sampleSize : ℕ) : CoreCall
  | clt (sampleSize numSamples : ℕ) : CoreCall

/-- The caller's view of one core call on the shared population: the contents
of the population slice after the call, and the new generator state.  Both
functions only read `population` (main.go lines 65 and 82) and never assign
to it; every slice they write (`sample`, `means`, `medians`, `sampleMeans`)
is freshly allocated inside the call, and the in-place sort performed by
`median` acts on the per-iteration `sample` slice, never on `population`. -/
def runCall (gints : ℤ → ℕ → ℕ) (call : CoreCall) (st : List ℝ × GoRand) :
    List ℝ × GoRand :=
  match call with
  | .boot bootstrapSamples sampleSize =>
      (st.1, (bootstrap gints st.1 bootstrapSamples sampleSize st.2).2)
  | .clt sampleSize numSamples =>
      (st.1, (centralLimitTheorem gints st.1 sampleSize numSamples st.2).2)

/-- Any number of core calls in sequence, threading population and generator
state. -/
def runCalls (gints : ℤ → ℕ → ℕ) : List CoreCall → List ℝ × GoRand → List ℝ × GoRand
  | [], st => st
  | c :: cs, st => runCalls gints cs (runCall gints c st)

theorem foldl_add_map_sum {α : Type} (f : α → ℝ) (l : List α) (a : ℝ) :
    l.foldl (fun acc v => acc + f v) a = a + (l.map f).sum := by
  induction l generalizing a with
  | nil => simp
  | cons x xs ih => simp [ih, add_assoc]

theorem mean_eq_sum_div (data : List ℝ) : mean data = data.sum / (data.length : ℝ) := by
  have h := foldl_add_map_sum (fun v : ℝ => v) data 0
  simp only [List.map_id_fun', id] at h
  simp [mean, h, List.map_id]

theorem standardError_eq (data : List ℝ) :
    standardError data =
      Real.sqrt ((data.map fun value => (value - mean data) ^ 2).sum /
          ((data.length : ℝ) - 1)) /
        Real.sqrt (data.length : ℝ) := by
  simp [standardError, foldl_add_map_sum (fun v : ℝ => (v - mean data) ^ 2) data 0]

theorem genLoop_length (gnorm : ℤ → ℕ → ℝ) (meanArg stddev : ℝ) (n : ℕ) (r : GoRand) :
    (genLoop gnorm meanArg stddev n r).1.length = n := by
  induction n generalizing r with
  | zero => rfl
  | succ n ih => simp [genLoop, ih]

theorem drawSample_length (gints : ℤ → ℕ → ℕ) (pop : List ℝ) (n : ℕ) (r : GoRand) :
    (drawSample gints pop n r).1.length = n := by
  induction n generalizing r with
  | zero => rfl
  | succ n ih => simp [drawSample, ih]

theorem drawSample_mem (gints : ℤ → ℕ → ℕ) (pop : List ℝ) (n : ℕ) (r : GoRand)
    (hpop : pop ≠ []) : ∀ x ∈ (drawSample gints pop n r).1, x ∈ pop := by
  induction n generalizing r with
  | zero => simp [drawSample]
  | succ n ih =>
    intro x hx
    simp only [drawSample, List.mem_cons] at hx
    rcases hx with h | h
    · have hlt : gints r.seed r.pos % pop.length < pop.length :=
        Nat.mod_lt _ (List.length_pos.mpr hpop)
      rw [h, intn, List.getD_eq_getElem pop 0 hlt]
      exact List.getElem_mem hlt
    · exact ih _ x h

theorem samplesList_length (gints : ℤ → ℕ → ℕ) (pop : List ℝ) (n k : ℕ) (r : GoRand) :
    (samplesList gints pop n k r).1.length = k := by
  induction k generalizing r with
  | zero => rfl
  | succ k ih => simp [samplesList, ih]

theorem samplesList_mem (gints : ℤ → ℕ → ℕ) (pop : List ℝ) (n k : ℕ) (r : GoRand)
    (hpop : pop ≠ []) :
    ∀ s ∈ (samplesList gints pop n k r).1, s.length = n ∧ ∀ x ∈ s, x ∈ pop := by
  induction k generalizing r with
  | zero => simp [samplesList]
  | succ k ih =>
    intro s hs
    simp only [samplesList, List.mem_cons] at hs
    rcases hs with h | h
    · subst h
      exact ⟨drawSample_length gints pop n r, drawSample_mem gints pop n r hpop⟩
    · exact ih _ s h

theorem overwrite_cons (y : ℝ) (l : List ℝ) (i : ℕ) (xs : List ℝ) :
    overwrite (y :: l) (i + 1) xs = y :: overwrite l i xs := by
  induction xs generalizing y l i with
  | nil => rfl
  | cons x xs ih => simp [overwrite, List.set, ih]

theorem overwrite_zero (xs : List ℝ) : ∀ l : List ℝ, xs.length ≤ l.length →
    overwrite l 0 xs = xs ++ l.drop xs.length := by
  induction xs with
  | nil => intro l _; simp [overwrite]
  | cons x xs ih =>
    intro l hl
    match l with
    | [] => simp at hl
    | y :: ys =>
      simp only [List.length_cons, Nat.add_le_add_iff_right] at hl
      simp only [overwrite, List.set, overwrite_cons, List.length_cons, List.drop_succ_cons]
      rw [ih ys hl]
      rfl

theorem overwrite_replicate (xs : List ℝ) (d : ℝ) (k : ℕ) (h : xs.length = k) :
    overwrite (List.replicate k d) 0 xs = xs := by
  subst h
  rw [overwrite_zero xs (List.replicate xs.length d) (by simp), List.drop_replicate]
  simp

theorem bootLoop_eq (gints : ℤ → ℕ → ℕ) (pop : List ℝ) (n k : ℕ) :
    ∀ (i : ℕ) (means medians : List ℝ) (r : GoRand),
    bootLoop gints pop n k i means medians r =
      (overwrite means i ((samplesList gints pop n k r).1.map mean),
       overwrite medians i ((samplesList gints pop n k r).1.map medianVal),
       (samplesList gints pop n k r).2) := by
  induction k with
  | zero => intro i means medians r; rfl
  | succ k ih =>
    intro i means medians r
    simp only [bootLoop, samplesList, List.map_cons]
    rw [ih]
    rfl

theorem cltLoop_eq (gints : ℤ → ℕ → ℕ) (pop : List ℝ) (n k : ℕ) :
    ∀ (i : ℕ) (sampleMeans : List ℝ) (r : GoRand),
    cltLoop gints pop n k i sampleMeans r =
      (overwrite sampleMeans i ((samplesList gints pop n k r).1.map mean),
       (samplesList gints pop n k r).2) := by
  induction k with
  | zero => intro i sampleMeans r; rfl
  | succ k ih =>
    intro i sampleMeans r
    simp only [cltLoop, samplesList, List.map_cons]
    rw [ih]
    rfl

theorem bootstrap_eq (gints : ℤ → ℕ → ℕ) (pop : List ℝ) (bootstrapSamples sampleSize : ℕ)
    (r : GoRand) :
    bootstrap gints pop bootstrapSamples sampleSize r =
      ((standardError ((samplesList gints pop sampleSize bootstrapSamples r).1.map mean),
        standardError
          ((samplesList gints pop sampleSize bootstrapSamples r).1.map medianVal)),
       (samplesList gints pop sampleSize bootstrapSamples r).2) := by
  have hlen := samplesList_length gints pop sampleSize bootstrapSamples r
  simp only [bootstrap, bootLoop_eq]
  rw [overwrite_replicate _ _ _ (by simp [hlen]),
    overwrite_replicate _ _ _ (by simp [hlen])]

theorem centralLimitTheorem_eq (gints : ℤ → ℕ → ℕ) (pop : List ℝ)
    (sampleSize numSamples : ℕ) (r : GoRand) :
    centralLimitTheorem gints pop sampleSize numSamples r =
      (standardError ((samplesList gints pop sampleSize numSamples r).1.map mean),
       (samplesList gints pop sampleSize numSamples r).2) := by
  have hlen := samplesList_length gints pop sampleSize numSamples r
  simp only [centralLimitTheorem, cltLoop_eq]
  rw [overwrite_replicate _ _ _ (by simp [hlen])]

theorem median_snd (data : List ℝ) : (median data).2 = data.insertionSort (· ≤ ·) := by
  simp only [median]
  split <;> rfl

theorem medianVal_eq (data : List ℝ) :
    medianVal data =
      if (data.insertionSort (· ≤ ·)).length % 2 = 0 then
        ((data.insertionSort (· ≤ ·)).getD ((data.insertionSort (· ≤ ·)).length / 2 - 1) 0 +
          (data.insertionSort (· ≤ ·)).getD ((data.insertionSort (· ≤ ·)).length / 2) 0) / 2
      else (data.insertionSort (· ≤ ·)).getD ((data.insertionSort (· ≤ ·)).length / 2) 0 := by
  simp only [medianVal, median, apply_ite Prod.fst]

/-- C1: for data of length at least 2, `standardError` computes
`sqrt(sampleVariance(data) / n)` where `sampleVariance` sums the squared
deviations from the arithmetic mean and divides by `n - 1` (Bessel), and on
`[1,2,3,4,5]` its value is within `1e-6` of `0.70710678119`. -/
theorem standardError_matches_sampleStandardError (data : List ℝ)
    (h : 2 ≤ data.length) :
    standardError data = sampleStandardErrorSpec data ∧
    |standardError [1, 2, 3, 4, 5] - 0.70710678119| < 1e-6 := by
  constructor
  · have hV : 0 ≤ (data.map fun value => (value - mean data) ^ 2).sum := by
      apply List.sum_nonneg
      intro y hy
      simp only [List.mem_map] at hy
      obtain ⟨v, _, rfl⟩ := hy
      positivity
    have hn1 : (0 : ℝ) ≤ (data.length : ℝ) - 1 := by
      have h2 : (2 : ℝ) ≤ (data.length : ℝ) := by exact_mod_cast h
      linarith
    rw [standardError_eq, sampleStandardErrorSpec, sampleVariance,
      Real.sqrt_div (div_nonneg hV hn1)]
  · have hm : mean ([1, 2, 3, 4, 5] : List ℝ) = 3 := by norm_num [mean]
    have hse : standardError [1, 2, 3, 4, 5] = Real.sqrt (10 / 4) / Real.sqrt 5 := by
      norm_num [standardError, hm]
    have h1 : Real.sqrt (10 / 4) / Real.sqrt 5 = Real.sqrt (1 / 2) := by
      rw [← Real.sqrt_div (by norm_num : (0 : ℝ) ≤ 10 / 4) 5]
      norm_num
    rw [hse, h1, abs_sub_lt_iff]
    constructor
    · have h2 : Real.sqrt (1 / 2) < 0.70710678119 + 1e-6 := by
        rw [Real.sqrt_lt' (by norm_num)]
        norm_num
      linarith
    · have h2 : (0.70710678119 - 1e-6 : ℝ) < Real.sqrt (1 / 2) :=
        (Real.lt_sqrt (by norm_num)).mpr (by norm_num)
      linarith

/-- Witness for C1 at `data = [1, 2, 3, 4, 5]`. -/
theorem standardError_matches_sampleStandardError_witness :
    2 ≤ ([1, 2, 3, 4, 5] : List ℝ).length ∧
    (standardError [1, 2, 3, 4, 5] = sampleStandardErrorSpec [1, 2, 3, 4, 5] ∧
      |standardError [1, 2, 3, 4, 5] - 0.70710678119| < 1e-6) :=
  ⟨by norm_num, standardError_matches_sampleStandardError [1, 2, 3, 4, 5] (by norm_num)⟩

/-- C5: population generation is deterministic: since `generatePopulation`
re-seeds the global generator with its hard-coded seed 42 on every call, two
calls with identical `(size, mean, stddev)` — and hence the same seed —
return element-for-element identical Populations of length exactly `size`,
whatever generator states the two calls start from. -/
theorem generatePopulation_deterministic (gnorm : ℤ → ℕ → ℝ) (size : ℤ)
    (meanArg stddev : ℝ) (r1 r2 : GoRand) (h : 0 ≤ size) :
    ∃ pop g1 g2,
      generatePopulation gnorm size meanArg stddev r1 = some (pop, g1) ∧
      generatePopulation gnorm size meanArg stddev r2 = some (pop, g2) ∧
      (pop.length : ℤ) = size := by
  refine ⟨(genLoop gnorm meanArg stddev size.toNat ⟨42, 0⟩).1,
    (genLoop gnorm meanArg stddev size.toNat ⟨42, 0⟩).2,
    (genLoop gnorm meanArg stddev size.toNat ⟨42, 0⟩).2, ?_, ?_, ?_⟩
  · simp [generatePopulation, not_lt.mpr h]
  · simp [generatePopulation, not_lt.mpr h]
  · rw [genLoop_length]
    exact Int.toNat_of_nonneg h

/-- Witness for C5 at `size = 1` from two distinct generator states. -/
theorem generatePopulation_deterministic_witness :
    0 ≤ (1 : ℤ) ∧
    ∃ pop g1 g2,
      generatePopulation (fun _ _ => 0) 1 100 10 ⟨0, 0⟩ = some (pop, g1) ∧
      generatePopulation (fun _ _ => 0) 1 100 10 ⟨7, 3⟩ = some (pop, g2) ∧
      (pop.length : ℤ) = 1 :=
  ⟨by norm_num,
    generatePopulation_deterministic (fun _ _ => 0) 1 100 10 ⟨0, 0⟩ ⟨7, 3⟩ (by norm_num)⟩

/-- C9 counterexample: at `size = 0`, `generatePopulation` returns normally
with a Population (the empty slice) rather than failing — it performs no
validation and its signature has no error channel at all. -/
theorem generatePopulation_size_zero_returns :
    generatePopulation (fun _ _ => 0) 0 100 10 ⟨0, 0⟩ = some ([], ⟨42, 0⟩) := by
  simp [generatePopulation, genLoop]

/-- C9 amended: `generatePopulation` does not validate `size`: for `size = 0`
it returns normally with the empty Population, and for negative `size` it
panics inside `make([]float64, size)` (modelled by `none`); in neither case
is an InvalidParameter error produced. -/
theorem generatePopulation_no_size_validation (gnorm : ℤ → ℕ → ℝ) (size : ℤ)
    (meanArg stddev : ℝ) (r : GoRand) (h : size ≤ 0) :
    (size = 0 →
      generatePopulation gnorm size meanArg stddev r = some ([], ⟨42, 0⟩)) ∧
    (size < 0 → generatePopulation gnorm size meanArg stddev r = none) := by
  constructor
  · rintro rfl
    simp [generatePopulation, genLoop]
  · intro hneg
    simp [generatePopulation, hneg]

/-- Witness for the amended C9 at `size = 0`. -/
theorem generatePopulation_no_size_validation_witness :
    (0 : ℤ) ≤ 0 ∧
    (((0 : ℤ) = 0 →
        generatePopulation (fun _ _ => 1) 0 100 10 ⟨5, 5⟩ = some ([], ⟨42, 0⟩)) ∧
      ((0 : ℤ) < 0 → generatePopulation (fun _ _ => 1) 0 100 10 ⟨5, 5⟩ = none)) :=
  ⟨le_refl 0, generatePopulation_no_size_validation (fun _ _ => 1) 0 100 10 ⟨5, 5⟩ (le_refl 0)⟩

/-- C6: resampling never mutates its source: after any sequence of
`bootstrap` and `centralLimitTheorem` calls on a shared population, the
caller's population slice holds the same elements in the same order as
before all the calls. -/
theorem population_unchanged_by_calls (gints : ℤ → ℕ → ℕ) (calls : List CoreCall)
    (pop : List ℝ) (r : GoRand) :
    (runCalls gints calls (pop, r)).1 = pop := by
  induction calls generalizing r with
  | nil => rfl
  | cons c cs ih => cases c <;> simp [runCalls, runCall, ih]

/-- C3 counterexample: `median` does mutate its argument: `sort.Float64s`
sorts the caller's slice in place, so after `median([2, 1])` the caller's
sequence holds `[1, 2]`, not the original `[2, 1]`. -/
theorem median_mutates_argument : (median [2, 1]).2 ≠ [2, 1] := by
  have h : (median ([2, 1] : List ℝ)).2 = [1, 2] := by
    norm_num [median, List.insertionSort, List.orderedInsert]
  rw [h]
  simp only [ne_eq, List.cons.injEq]
  norm_num

/-- C3 amended: `median` sorts the caller's sequence in place: after the
call the caller's sequence holds the same elements (a permutation of the
original) rearranged into ascending order. -/
theorem median_sorts_argument_in_place (data : List ℝ) :
    List.Perm (median data).2 data ∧ (median data).2.Sorted (fun a b : ℝ => a ≤ b) := by
  rw [median_snd data]
  exact ⟨List.perm_insertionSort _ data, List.sorted_insertionSort _ data⟩

/-- C4 counterexample: on the single-element input `[1]`, `standardError`
does not fail with a distinguishable InsufficientData error — its signature
has no error channel at all — but silently divides by
`float64(len(data) - 1) = 0` and returns NaN. -/
theorem standardError_singleton_nan : standardErrorF [1] = GoFloat.nan := by
  norm_num [standardErrorF, meanF, GoFloat.add, GoFloat.sub, GoFloat.pow2, GoFloat.div,
    GoFloat.sqrtF]

/-- C4 amended: for every input of length `< 2`, `standardError` returns
NaN (via the `0/0` in the variance quotient, and additionally the NaN mean
and the final `0/0` for the empty input) instead of signalling an
InsufficientData error. -/
theorem standardError_short_input_nan (data : List ℝ) (h : data.length < 2) :
    standardErrorF data = GoFloat.nan := by
  match data with
  | [] =>
    norm_num [standardErrorF, meanF, GoFloat.add, GoFloat.sub, GoFloat.pow2, GoFloat.div,
      GoFloat.sqrtF]
  | [x] =>
    norm_num [standardErrorF, meanF, GoFloat.add, GoFloat.sub, GoFloat.pow2, GoFloat.div,
      GoFloat.sqrtF]
  | x :: y :: rest => simp only [List.length_cons] at h; omega

/-- Witness for the amended C4 at `data = [5]`. -/
theorem standardError_short_input_nan_witness :
    ([(5 : ℝ)] : List ℝ).length < 2 ∧ standardErrorF [(5 : ℝ)] = GoFloat.nan :=
  ⟨by norm_num, standardError_short_input_nan [(5 : ℝ)] (by norm_num)⟩

/-- C7: for every non-empty sequence, `median` returns the middle element of
the sorted sequence (odd length) or the average of the two middle elements
of the sorted sequence (even length) — stated for an arbitrary sorted
permutation `s` of the data. -/
theorem median_middle_of_sorted (data s : List ℝ) (hne : data ≠ [])
    (hs : s.Sorted (fun a b : ℝ => a ≤ b)) (hperm : List.Perm s data) :
    (median data).1 =
      if data.length % 2 = 0 then
        (s.getD (data.length / 2 - 1) 0 + s.getD (data.length / 2) 0) / 2
      else s.getD (data.length / 2) 0 := by
  have hlen : (data.insertionSort (· ≤ ·)).length = data.length :=
    (List.perm_insertionSort (· ≤ ·) data).length_eq
  have hsort : s = data.insertionSort (· ≤ ·) :=
    List.eq_of_perm_of_sorted
      (hperm.trans (List.perm_insertionSort (· ≤ ·) data).symm) hs
      (List.sorted_insertionSort (· ≤ ·) data)
  subst hsort
  simp only [median, apply_ite Prod.fst, hlen]

/-- Witness for C7 at `data = [1]`, `s = [1]`. -/
theorem median_middle_of_sorted_witness :
    ([(1 : ℝ)] : List ℝ) ≠ [] ∧
    (median [(1 : ℝ)]).1 =
      if ([(1 : ℝ)] : List ℝ).length % 2 = 0 then
        (([(1 : ℝ)] : List ℝ).getD (([(1 : ℝ)] : List ℝ).length / 2 - 1) 0 +
          ([(1 : ℝ)] : List ℝ).getD (([(1 : ℝ)] : List ℝ).length / 2) 0) / 2
      else ([(1 : ℝ)] : List ℝ).getD (([(1 : ℝ)] : List ℝ).length / 2) 0 :=
  ⟨by simp,
    median_middle_of_sorted [(1 : ℝ)] [(1 : ℝ)] (by simp) (by simp) (List.Perm.refl _)⟩

/-- C8: for every non-empty sequence, the value returned by `median` lies
between the minimum element and the maximum element of the sequence
(inclusive); the minimum and maximum are characterised by membership plus
their bounding property. -/
theorem median_between_min_and_max (data : List ℝ) (lo hi : ℝ)
    (hlo : lo ∈ data ∧ ∀ x ∈ data, lo ≤ x) (hhi : hi ∈ data ∧ ∀ x ∈ data, x ≤ hi) :
    lo ≤ medianVal data ∧ medianVal data ≤ hi := by
  obtain ⟨hlom, hlob⟩ := hlo
  obtain ⟨_, hhib⟩ := hhi
  have hperm := List.perm_insertionSort (· ≤ ·) data
  have hlen : (data.insertionSort (· ≤ ·)).length = data.length := hperm.length_eq
  have hpos : 0 < data.length := List.length_pos.mpr (List.ne_nil_of_mem hlom)
  have hmem : ∀ i, i < data.length →
      lo ≤ (data.insertionSort (· ≤ ·)).getD i 0 ∧
        (data.insertionSort (· ≤ ·)).getD i 0 ≤ hi := by
    intro i hi2
    have h2 : i < (data.insertionSort (· ≤ ·)).length := by rw [hlen]; exact hi2
    rw [List.getD_eq_getElem _ _ h2]
    have hmemd : (data.insertionSort (· ≤ ·))[i] ∈ data :=
      hperm.mem_iff.mp (List.getElem_mem h2)
    exact ⟨hlob _ hmemd, hhib _ hmemd⟩
  rw [medianVal_eq, hlen]
  have hhalf : data.length / 2 < data.length := Nat.div_lt_self hpos one_lt_two
  have h1 := hmem (data.length / 2) hhalf
  have h2 := hmem (data.length / 2 - 1) (lt_of_le_of_lt (Nat.sub_le _ _) hhalf)
  split
  · constructor <;> [linarith [h1.1, h2.1]; linarith [h1.2, h2.2]]
  · exact h1

/-- Witness for C8 at `data = [1, 2]`, `lo = 1`, `hi = 2`. -/
theorem median_between_min_and_max_witness :
    ((1 : ℝ) ∈ ([1, 2] : List ℝ) ∧ ∀ x ∈ ([1, 2] : List ℝ), (1 : ℝ) ≤ x) ∧
    ((2 : ℝ) ∈ ([1, 2] : List ℝ) ∧ ∀ x ∈ ([1, 2] : List ℝ), x ≤ (2 : ℝ)) ∧
    (1 ≤ medianVal [1, 2] ∧ medianVal [1, 2] ≤ 2) := by
  have hlo : (1 : ℝ) ∈ ([1, 2] : List ℝ) ∧ ∀ x ∈ ([1, 2] : List ℝ), (1 : ℝ) ≤ x := by
    constructor
    · simp
    · intro x hx
      rcases List.mem_cons.mp hx with h | h
      · rw [h]
      · simp at h
        rw [h]
        norm_num
  have hhi : (2 : ℝ) ∈ ([1, 2] : List ℝ) ∧ ∀ x ∈ ([1, 2] : List ℝ), x ≤ (2 : ℝ) := by
    constructor
    · simp
    · intro x hx
      rcases List.mem_cons.mp hx with h | h
      · rw [h]; norm_num
      · simp at h
        rw [h]
  exact ⟨hlo, hhi, median_between_min_and_max [1, 2] 1 2 hlo hhi⟩

/-- C2: `bootstrap(population, bootstrapSamples, sampleSize)` performs
`bootstrapSamples` iterations, each drawing one sample of length
`sampleSize` with replacement from the population (every element of every
sample is an element of the population, selected by the generator), records
the samples' means and medians into two distributions of length
`bootstrapSamples`, and returns exactly the pair
`(standardError(means), standardError(medians))`. -/
theorem bootstrap_algorithm_spec (gints : ℤ → ℕ → ℕ) (pop : List ℝ)
    (bootstrapSamples sampleSize : ℕ) (r : GoRand) (hB : 2 ≤ bootstrapSamples)
    (hn : 1 ≤ sampleSize) (hpop : pop ≠ []) :
    (samplesList gints pop sampleSize bootstrapSamples r).1.length = bootstrapSamples ∧
    (∀ s ∈ (samplesList gints pop sampleSize bootstrapSamples r).1,
      s.length = sampleSize ∧ ∀ x ∈ s, x ∈ pop) ∧
    ((samplesList gints pop sampleSize bootstrapSamples r).1.map mean).length =
      bootstrapSamples ∧
    ((samplesList gints pop sampleSize bootstrapSamples r).1.map medianVal).length =
      bootstrapSamples ∧
    (bootstrap gints pop bootstrapSamples sampleSize r).1 =
      (standardError ((samplesList gints pop sampleSize bootstrapSamples r).1.map mean),
        standardError
          ((samplesList gints pop sampleSize bootstrapSamples r).1.map medianVal)) := by
  refine ⟨samplesList_length _ _ _ _ _, samplesList_mem _ _ _ _ _ hpop, ?_, ?_, ?_⟩
  · simp [samplesList_length]
  · simp [samplesList_length]
  · rw [bootstrap_eq]

/-- Witness for C2 at `pop = [1]`, `bootstrapSamples = 2`, `sampleSize = 1`. -/
theorem bootstrap_algorithm_spec_witness :
    2 ≤ 2 ∧ 1 ≤ 1 ∧ ([(1 : ℝ)] : List ℝ) ≠ [] ∧
    ((samplesList (fun _ _ => 0) [(1 : ℝ)] 1 2 ⟨0, 0⟩).1.length = 2 ∧
      (∀ s ∈ (samplesList (fun _ _ => 0) [(1 : ℝ)] 1 2 ⟨0, 0⟩).1,
        s.length = 1 ∧ ∀ x ∈ s, x ∈ ([(1 : ℝ)] : List ℝ)) ∧
      ((samplesList (fun _ _ => 0) [(1 : ℝ)] 1 2 ⟨0, 0⟩).1.map mean).length = 2 ∧
      ((samplesList (fun _ _ => 0) [(1 : ℝ)] 1 2 ⟨0, 0⟩).1.map medianVal).length = 2 ∧
      (bootstrap (fun _ _ => 0) [(1 : ℝ)] 2 1 ⟨0, 0⟩).1 =
        (standardError ((samplesList (fun _ _ => 0) [(1 : ℝ)] 1 2 ⟨0, 0⟩).1.map mean),
          standardError
            ((samplesList (fun _ _ => 0) [(1 : ℝ)] 1 2 ⟨0, 0⟩).1.map medianVal))) :=
  ⟨le_refl 2, le_refl 1, by simp,
    bootstrap_algorithm_spec (fun _ _ => 0) [(1 : ℝ)] 2 1 ⟨0, 0⟩ (le_refl 2) (le_refl 1)
      (by simp)⟩

/-- C10: started from the same generator state, `centralLimitTheorem`
coincides with the first component (`seMean`) of `bootstrap`: both draw the
same `k` samples of size `sampleSize` with replacement and apply
`standardError` to the resulting sample means. -/
theorem centralLimitTheorem_eq_bootstrap_seMean (gints : ℤ → ℕ → ℕ) (pop : List ℝ)
    (sampleSize k : ℕ) (r : GoRand) (hn : 1 ≤ sampleSize) (hk : 2 ≤ k) :
    (centralLimitTheorem gints pop sampleSize k r).1 =
      (bootstrap gints pop k sampleSize r).1.1 := by
  rw [centralLimitTheorem_eq, bootstrap_eq]

/-- Witness for C10 at `pop = [1]`, `sampleSize = 1`, `k = 2`. -/
theorem centralLimitTheorem_eq_bootstrap_seMean_witness :
    1 ≤ 1 ∧ 2 ≤ 2 ∧
    (centralLimitTheorem (fun _ _ => 0) [(1 : ℝ)] 1 2 ⟨0, 0⟩).1 =
      (bootstrap (fun _ _ => 0) [(1 : ℝ)] 2 1 ⟨0, 0⟩).1.1 :=
  ⟨le_refl 1, le_refl 2,
    centralLimitTheorem_eq_bootstrap_seMean (fun _ _ => 0) [(1 : ℝ)] 1 2 ⟨0, 0⟩
      (le_refl 1) (le_refl 2)⟩

end

end BootstrapGo
